import Mathlib

/-!
Shallow embedding of the record-extraction and filtering pipeline of
src/src/textacy/datasets/wikimedia.py (class Wikimedia and its module-level
rule tables).

Modelling conventions:
- A JSON value that may be absent (dict.get returning None) is an Option.
- Python strings are Lean Strings; Python len over code points matches
  String.length; str.startswith is pyStartswith (code-point prefix);
  slicing text[k:] is String.drop, counting code points.
- str.strip() is modelled by pyStrip over Char.isWhitespace; no claim in
  this development depends on exotic Unicode whitespace.
- Exceptions are modelled with Except: ValueError from filter construction,
  TypeError from applying len to None, OSError for a missing dump file.
- Machine floats (popularity_score) are passthrough scalars never inspected
  by the code under study; they are modelled as an Option Int payload.
-/

/-- The bulk-insert index header of a raw line pair: models the Python dict
access index["index"]["_id"] from Wikimedia.__iter__ (the only field read). -/
structure IndexObj where
  _id : String
deriving DecidableEq, Repr

/-- A source document line of the dump, with the optional fields read by
Wikimedia.__iter__. The Python code reads them with source.get(...), so an
absent field is none. The field named namespace in the JSON is called ns
here because namespace is a Lean keyword. -/
structure Source where
  ns : Option Int
  opening_text : Option String
  text : Option String
  title : String
  heading : List String
  category : List String
  outgoing_link : List String
  external_link : List String
  create_timestamp : Option String
  incoming_links : Option Int
  popularity_score : Option Int
deriving DecidableEq, Repr

/-- The normalized record yielded by Wikimedia.__iter__ (the dict literal at
the yield statement). Every key of the Python dict is always present; a key
whose value may be Python None is an Option. In particular text is none when
the source document has no text field. -/
structure Record where
  page_id : String
  title : String
  text : Option String
  headings : List String
  wiki_links : List String
  ext_links : List String
  categories : List String
  dt_created : Option String
  n_incoming_links : Option Int
  popularity_score : Option Int
deriving DecidableEq, Repr

/-- Models Python str.startswith at the code-point level (case-sensitive
exact prefix match). -/
def pyStartswith (start s : String) : Bool :=
  start.toList.isPrefixOf s.toList

/-- Models Python str.strip() with no argument: remove leading and trailing
whitespace characters. -/
def pyStrip (s : String) : String :=
  String.mk
    (((s.toList.dropWhile Char.isWhitespace).reverse.dropWhile
        Char.isWhitespace).reverse)

/-- Hex digit value, as used by percent-decoding. -/
def hexDigitVal (c : Char) : Option Nat :=
  if c.toNat ≥ 48 ∧ c.toNat ≤ 57 then some (c.toNat - 48)
  else if c.toNat ≥ 97 ∧ c.toNat ≤ 102 then some (c.toNat - 97 + 10)
  else if c.toNat ≥ 65 ∧ c.toNat ≤ 70 then some (c.toNat - 65 + 10)
  else none

/-- Percent-decoding of a character list: a %XX escape with two hex digits
becomes the character of that code; an ill-formed escape is kept literally.
Models the single-byte (ASCII) case of urllib.parse.unquote, which is all
the dumps' external links need; multi-byte UTF-8 escapes are out of scope
for the claims. -/
def percentDecode : List Char → List Char
  | [] => []
  | '%' :: h1 :: h2 :: rest =>
    match hexDigitVal h1, hexDigitVal h2 with
    | some a, some b => Char.ofNat (16 * a + b) :: percentDecode rest
    | _, _ => '%' :: percentDecode (h1 :: h2 :: rest)
  | c :: rest => c :: percentDecode rest

/-- Models urllib.parse.unquote_plus: replace + by a space, then
percent-decode. -/
def unquotePlus (s : String) : String :=
  String.mk (percentDecode (s.toList.map (fun c => if c = '+' then ' ' else c)))

/-- Models _is_bad_category_en. The regex
^(?:All )?(?:Wikipedia )?(?:[Aa]rticles?|[Pp]ages) searched with re.search is
a prefix match of: an optional "All ", an optional "Wikipedia ", then
Article/article/Pages/pages (the trailing s? of articles? is subsumed by the
prefix semantics). -/
def is_bad_category_en (cat : String) : Bool :=
  cat == "All stub articles"
  || pyStartswith "Disambiguation pages" cat
  || (["", "All "].any fun a =>
       (["", "Wikipedia "].any fun w =>
         (["Article", "article", "Pages", "pages"].any fun x =>
           pyStartswith (a ++ w ++ x) cat)))

/-- Models the module-level table is_bad_category_funcs together with the
lookup is_bad_category_funcs.get(project, {}).get(lang) performed in
Wikimedia.__iter__: none when no predicate is registered for the pair. -/
def is_bad_category_funcs (project lang : String) : Option (String → Bool) :=
  match project, lang with
  | "wiki", "de" => some (fun cat => pyStartswith "Wikipedia:" cat)
  | "wiki", "en" => some is_bad_category_en
  | "wiki", "nl" => some (fun cat => pyStartswith "Wikipedia:" cat)
  | "wikinews", "de" =>
    some (fun cat => cat == "Artikelstatus: Fertig" || cat == "Veröffentlicht")
  | "wikinews", "en" =>
    some (fun cat =>
      cat == "Archived" || cat == "Published" || cat == "AutoArchived"
        || cat == "No publish")
  | "wikinews", "es" =>
    some (fun cat => cat == "Archivado" || cat == "Artículos publicados")
  | "wikinews", "fr" =>
    some (fun cat => cat == "Article archivé" || cat == "Article publié")
  | "wikinews", "it" => some (fun cat => cat == "Pubblicati")
  | "wikinews", "nl" => some (fun cat => cat == "Gepubliceerd")
  | "wikinews", "pt" =>
    some (fun cat => cat == "Arquivado" || cat == "Publicado")
  | _, _ => none

/-- Models the module-level table _bad_wiki_link_starts together with the
lookup _bad_wiki_link_starts.get(project, {}).get(lang, tuple()) performed in
Wikimedia.__iter__: the empty list when no prefixes are registered. -/
def bad_wiki_link_starts (project lang : String) : List String :=
  match project, lang with
  | "wiki", "de" => ["Wikipedia:", "Hilfe:"]
  | "wiki", "el" => ["Βοήθεια:"]
  | "wiki", "en" => ["Wikipedia:", "Help:"]
  | "wiki", "es" => ["Wikipedia:", "Ayuda:"]
  | "wiki", "fr" => ["Wikipédia:", "Aide:"]
  | "wiki", "it" => ["Wikipedia:", "Aiuto:"]
  | "wiki", "nl" => ["Wikipedia:"]
  | "wiki", "pt" => ["Wikipédia:", "Ajuda:"]
  | "wikinews", "de" => ["Wikinews:"]
  | "wikinews", "el" => ["Βικινέα"]
  | "wikinews", "en" => ["Wikinews:", "Template:", "User:"]
  | "wikinews", "es" => ["Wikinoticias:"]
  | "wikinews", "fr" => ["Wikinews:"]
  | "wikinews", "it" => ["Wikinotizie:"]
  | "wikinews", "nl" => ["Wikinieuws:"]
  | "wikinews", "pt" => ["Wikinotícias:"]
  | _, _ => []

/-- Text reconstruction from Wikimedia.__iter__ lines 243-246:
opening_text = source.get("opening_text"); text = source.get("text");
if opening_text and text and text.startswith(opening_text):
    text = opening_text + two newlines + text[len(opening_text):].strip().
Python truthiness makes both None and the empty string falsy, hence the
isEmpty guards. -/
def reconstructText (opening_text text : Option String) : Option String :=
  match opening_text, text with
  | some o, some t =>
    if !o.isEmpty && !t.isEmpty && pyStartswith o t then
      some (o ++ "\n\n" ++ pyStrip (t.drop o.length))
    else some t
  | _, _ => text

/-- Category cleaning from Wikimedia.__iter__ lines 248-253: when a
bad-category predicate is registered, keep the categories it rejects as bad;
otherwise keep all. -/
def cleanCategories (bad : Option (String → Bool)) (cats : List String) :
    List String :=
  match bad with
  | some f => cats.filter (fun cat => !f cat)
  | none => cats

/-- Wiki-link cleaning from Wikimedia.__iter__ lines 254-258: keep an
outgoing link unless some registered bad start is a (case-sensitive) prefix
of it. -/
def cleanWikiLinks (badStarts : List String) (links : List String) :
    List String :=
  links.filter (fun wl => !(badStarts.any (fun b => pyStartswith b wl)))

/-- The body of the loop in Wikimedia.__iter__ for one (index, source) pair:
skip the pair (continue) unless source.get("namespace") equals the dataset's
integer namespace, otherwise build the yielded record. none models a skipped
pair. -/
def extractPair (project lang : String) (ns : Int) (index : IndexObj)
    (source : Source) : Option Record :=
  if source.ns = some ns then
    some
      { page_id := index._id
        title := source.title
        text := reconstructText source.opening_text source.text
        headings := source.heading
        wiki_links :=
          cleanWikiLinks (bad_wiki_link_starts project lang)
            source.outgoing_link
        ext_links := source.external_link.map unquotePlus
        categories :=
          cleanCategories (is_bad_category_funcs project lang) source.category
        dt_created := source.create_timestamp
        n_incoming_links := source.incoming_links
        popularity_score := source.popularity_score }
  else none

/-- Models cytoolz.itertoolz.partition(2, lines) as called on line 239 of
Wikimedia.__iter__: group consecutive elements in pairs, dropping a trailing
odd element (partition without a pad yields complete tuples only). -/
def partition2 : List α → List (α × α)
  | a :: b :: rest => (a, b) :: partition2 rest
  | _ => []

/-- A raw decoded line of the dump: a bulk-insert index header or a source
document. Well-formed dumps alternate the two; no claim depends on malformed
line shapes. -/
abbrev DumpLine : Type := IndexObj ⊕ Source

/-- Extraction for one raw line pair. A well-formed pair (index header,
source document) goes through extractPair; for any other shape Python either
skips the pair at the namespace check or raises on the missing index key,
and no claim exercises those shapes, so they are modelled as skipped. -/
def pairExtract (project lang : String) (ns : Int) :
    DumpLine × DumpLine → Option Record
  | (Sum.inl i, Sum.inr s) => extractPair project lang ns i s
  | _ => none

/-- Error kinds surfaced by the pipeline: OSError for the missing dump file
(Wikimedia.__iter__ lines 227-231), ValueError from _get_filters, TypeError
from len(None) in the min-length predicate. -/
inductive PipeErr where
  | notFound
  | valueError
  | typeError
deriving DecidableEq, Repr

/-- Wikimedia.__iter__ as a whole: none for the dump models a path for which
Wikimedia.filepath is None (the file does not exist), in which case OSError
is raised before any line is read; otherwise the raw lines are consumed in
pairs and each pair is extracted, skipped pairs being omitted. -/
def iterRecords (project lang : String) (ns : Int)
    (dump : Option (List DumpLine)) : Except PipeErr (List Record) :=
  match dump with
  | none => .error .notFound
  | some lines =>
    .ok ((partition2 lines).filterMap (pairExtract project lang ns))

/-- A category or wiki_link filter value: the Python API accepts a single
string or a set of strings. -/
inductive SetArg where
  | one : String → SetArg
  | many : List String → SetArg
deriving DecidableEq, Repr

/-- Modelled from the spec: utils.validate_set_members lives outside the
given source tree; per the spec a category or wikiLink value is accepted as
a single string or a set of strings and normalized to a set (of strings).
A Python set is modelled as a list used only through membership. -/
def validate_set_members : SetArg → List String
  | .one s => [s]
  | .many l => l

/-- A filter predicate closure as built by Wikimedia._get_filters. A Python
predicate may raise (TypeError), hence the Except result. -/
def PredE : Type := Record → Except Unit Bool

/-- The min_len predicate from Wikimedia._get_filters line 280:
lambda record: len(record.get("text", "")) >= min_len.
The records built by Wikimedia.__iter__ always contain the text key, so the
default "" of dict.get is dead code; the value is Python None (modelled as
none) exactly when the source document had no text field, and len(None)
raises TypeError, modelled by the error branch. -/
def minLenPred (min_len : Int) : PredE := fun record =>
  match record.text with
  | some t => .ok (decide (min_len ≤ (t.length : Int)))
  | none => .error ()

/-- The category predicate from Wikimedia._get_filters lines 285-290:
lambda record: record.get("categories") and any(c in record["categories"]).
The categories key is always present; the truthiness of the tuple is its
non-emptiness. Never raises. -/
def categoryPred (category : List String) : PredE := fun record =>
  .ok (!record.categories.isEmpty
    && category.any (fun ctgry => record.categories.contains ctgry))

/-- The wiki_link predicate from Wikimedia._get_filters lines 295-300, same
shape as the category predicate but over wiki_links. -/
def wikiLinkPred (wiki_link : List String) : PredE := fun record =>
  .ok (!record.wiki_links.isEmpty
    && wiki_link.any (fun wl => record.wiki_links.contains wl))

/-- The category entry of the filter list (empty when category is None). -/
def catFilters (category : Option SetArg) : List PredE :=
  match category with
  | some arg => [categoryPred (validate_set_members arg)]
  | none => []

/-- The wiki_link entry of the filter list (empty when wiki_link is None). -/
def wlFilters (wiki_link : Option SetArg) : List PredE :=
  match wiki_link with
  | some arg => [wikiLinkPred (validate_set_members arg)]
  | none => []

/-- Wikimedia._get_filters: raises ValueError when min_len is given and is
less than 1, otherwise returns the filter list in construction order
(min_len, then category, then wiki_link). The check runs before any record
exists: the function never sees the record stream. -/
def getFilters (category wiki_link : Option SetArg) (min_len : Option Int) :
    Except Unit (List PredE) :=
  match min_len with
  | some n =>
    if n < 1 then .error ()
    else .ok (minLenPred n :: (catFilters category ++ wlFilters wiki_link))
  | none => .ok (catFilters category ++ wlFilters wiki_link)

/-- Evaluation of all(filter_(record) for filter_ in filters): predicates
run left to right, the first False short-circuits, a raise propagates. -/
def runFilters : List PredE → Record → Except Unit Bool
  | [], _ => .ok true
  | f :: fs, record =>
    match f record with
    | .error e => .error e
    | .ok false => .ok false
    | .ok true => runFilters fs record

/-- The lazy composition of Wikimedia._filtered_iter (non-empty filter list
branch) with itertools.islice(..., limit) as pulled by texts/records.
The result is the list of yielded records plus a flag recording whether the
iteration raised (TypeError from a predicate) instead of finishing. A limit
of some 0 pulls nothing; reaching the limit stops pulling, so records past
it are never examined (laziness / short-circuit). On a raise, the records
yielded before it are not modelled separately: the run is reported as the
error flag. -/
def filteredIterGo : List Record → List PredE → Option Nat → List Record × Bool
  | [], _, _ => ([], false)
  | record :: rest, fs, limit =>
    if limit = some 0 then ([], false)
    else
      match runFilters fs record with
      | .error _ => ([], true)
      | .ok true =>
        let out := filteredIterGo rest fs
          (match limit with | some n => some (n - 1) | none => none)
        (record :: out.1, out.2)
      | .ok false => filteredIterGo rest fs limit

/-- itertools.islice(seq, limit) over a plain (never-raising) sequence:
everything when limit is None, the first n elements when limit is n. -/
def listLimit (l : List α) : Option Nat → List α
  | none => l
  | some n => l.take n

/-- Wikimedia._filtered_iter composed with islice: the empty filter list
takes the pass-through branch (plain yield loop, which cannot raise). -/
def filteredLimited (records : List Record) (fs : List PredE)
    (limit : Option Nat) : List Record × Bool :=
  if fs.isEmpty then (listLimit records limit, false)
  else filteredIterGo records fs limit

/-- The shared query pipeline of Wikimedia.texts and Wikimedia.records up to
the final projection: build filters (ValueError first, before any
iteration), open the dump (OSError when missing), extract records, filter
with limit (TypeError when a predicate raises). -/
def queryRecords (project lang : String) (ns : Int)
    (dump : Option (List DumpLine)) (category wiki_link : Option SetArg)
    (min_len : Option Int) (limit : Option Nat) :
    Except PipeErr (List Record) :=
  match getFilters category wiki_link min_len with
  | .error _ => .error .valueError
  | .ok fs =>
    match iterRecords project lang ns dump with
    | .error e => .error e
    | .ok records =>
      let out := filteredLimited records fs limit
      if out.2 then .error .typeError else .ok out.1

/-- Wikimedia.texts: the query pipeline projected on record["text"], which
is Python None (yielded as-is, not skipped and not replaced) when the source
document had no text field. -/
def textsOp (project lang : String) (ns : Int)
    (dump : Option (List DumpLine)) (category wiki_link : Option SetArg)
    (min_len : Option Int) (limit : Option Nat) :
    Except PipeErr (List (Option String)) :=
  match queryRecords project lang ns dump category wiki_link min_len limit with
  | .error e => .error e
  | .ok out => .ok (out.map Record.text)

/-- Abbreviation for a predicate application that returned True (as opposed
to False or a raise). -/
def predTrue (f : PredE) (r : Record) : Bool :=
  match f r with
  | .ok true => true
  | _ => false

/-- A record passes all filters of the list (with none of them raising). -/
def passAllB (fs : List PredE) (r : Record) : Bool :=
  fs.all (fun f => predTrue f r)

/-- A baseline source document used to instantiate witnesses: namespace 0,
a plain text, and no optional metadata. -/
def srcBase : Source :=
  { ns := some 0
    opening_text := none
    text := some "Hello world"
    title := "T"
    heading := []
    category := []
    outgoing_link := []
    external_link := []
    create_timestamp := none
    incoming_links := none
    popularity_score := none }

/-- A source document with no text field (dict.get returns None). -/
def srcNoText : Source := { srcBase with text := none }

/-- A source document with no namespace field. -/
def srcNoNs : Source := { srcBase with ns := none }

/-- A source document whose opening_text field is present but empty: Python
truthiness makes it falsy, so no reconstruction happens even though every
string starts with the empty string. -/
def srcEmptyOpening : Source :=
  { srcBase with opening_text := some "", text := some "a" }

/-- The worked example of the spec: opening text duplicated at the start of
the body, one noise category, one noise wiki link. -/
def demoSource : Source :=
  { ns := some 0
    opening_text := some "Cats are animals."
    text := some "Cats are animals. They purr a lot."
    title := "Cats"
    heading := []
    category := ["All stub articles", "Felines"]
    outgoing_link := ["Wikipedia:Sandbox", "Animal"]
    external_link := ["https%3A%2F%2Fexample.com%2Fa+b"]
    create_timestamp := none
    incoming_links := none
    popularity_score := none }

/-- The record the pipeline extracts from demoSource for project wiki,
language en, namespace 0 (checked definitionally below). -/
def demoRecord : Record :=
  { page_id := "1"
    title := "Cats"
    text := some "Cats are animals.\n\nThey purr a lot."
    headings := []
    wiki_links := ["Animal"]
    ext_links := ["https://example.com/a b"]
    categories := ["Felines"]
    dt_created := none
    n_incoming_links := none
    popularity_score := none }

/-- A record whose text is empty, for exercising the min-length filter. -/
def recEmptyText : Record :=
  { page_id := "2"
    title := "E"
    text := some ""
    headings := []
    wiki_links := []
    ext_links := []
    categories := []
    dt_created := none
    n_incoming_links := none
    popularity_score := none }

/-- A record with a short non-empty text, for the min-length filter. -/
def recShortText : Record :=
  { recEmptyText with page_id := "3", text := some "x" }

/-- Reconstruction is skipped when the source has no opening_text field. -/
theorem reconstructText_no_opening (t : Option String) :
    reconstructText none t = t := by
  cases t <;> rfl

/-- Reconstruction is skipped when the source has no text field. -/
theorem reconstructText_no_text (o : Option String) :
    reconstructText o none = none := by
  cases o <;> rfl

/-- Reconstruction fires exactly when both strings are non-empty and the
opening is a prefix of the body. -/
theorem reconstructText_pos (o t : String) (ho : o ≠ "") (ht : t ≠ "")
    (hp : pyStartswith o t = true) :
    reconstructText (some o) (some t)
      = some (o ++ "\n\n" ++ pyStrip (t.drop o.length)) := by
  have h1 : o.isEmpty = false := by
    rw [Bool.eq_false_iff]
    simp [String.isEmpty_iff, ho]
  have h2 : t.isEmpty = false := by
    rw [Bool.eq_false_iff]
    simp [String.isEmpty_iff, ht]
  simp [reconstructText, h1, h2, hp]

/-- Reconstruction does not fire when a field is empty or the body does not
start with the opening. -/
theorem reconstructText_neg (o t : String)
    (h : o = "" ∨ t = "" ∨ pyStartswith o t = false) :
    reconstructText (some o) (some t) = some t := by
  have hb : (!o.isEmpty && !t.isEmpty && pyStartswith o t) = false := by
    rcases h with h | h | h
    · subst h
      rw [show ("" : String).isEmpty = true from rfl]
      simp
    · subst h
      rw [show ("" : String).isEmpty = true from rfl]
      simp
    · simp [h]
  simp [reconstructText, hb]

/-- Inversion of extractPair: a yielded record is the dict literal of the
yield statement, built from the source fields. -/
theorem extractPair_inv (project lang : String) (ns : Int) (index : IndexObj)
    (source : Source) (r : Record)
    (h : extractPair project lang ns index source = some r) :
    source.ns = some ns ∧
    r = { page_id := index._id
          title := source.title
          text := reconstructText source.opening_text source.text
          headings := source.heading
          wiki_links :=
            cleanWikiLinks (bad_wiki_link_starts project lang)
              source.outgoing_link
          ext_links := source.external_link.map unquotePlus
          categories :=
            cleanCategories (is_bad_category_funcs project lang)
              source.category
          dt_created := source.create_timestamp
          n_incoming_links := source.incoming_links
          popularity_score := source.popularity_score } := by
  by_cases hns : source.ns = some ns
  · refine ⟨hns, ?_⟩
    rw [extractPair, if_pos hns] at h
    exact (Option.some.injEq _ _ ▸ h).symm
  · rw [extractPair, if_neg hns] at h
    exact absurd h (by simp)

/-- C1 counterexample: the source document srcEmptyOpening has an
opening_text field (the empty string) and a text field "a", and "a" starts
with the empty string, yet the yielded text is "a" verbatim and not
opening_text plus a blank line plus the stripped remainder, because Python
truthiness treats the empty opening_text as absent. -/
theorem claim1_counterexample :
    (extractPair "wiki" "en" 0 ⟨"1"⟩ srcEmptyOpening).map Record.text
        = some (some "a") ∧
    (pyStartswith "" "a") = true ∧
    some (some "a")
      ≠ some (some ("" ++ "\n\n" ++ (pyStrip ("a".drop "".length)))) := by
  refine ⟨rfl, rfl, ?_⟩
  decide

/-- C1 (amended): for every yielded record, when the source has a non-empty
opening_text and a non-empty text that starts with it, the yielded text is
opening_text plus a blank line plus the whitespace-stripped remainder;
otherwise (a field absent or empty, or text not starting with opening_text)
the yielded text is the source text verbatim, absent if text is absent. -/
theorem claim1_text_reconstruction (project lang : String) (ns : Int)
    (index : IndexObj) (source : Source) (r : Record)
    (h : extractPair project lang ns index source = some r) :
    (∀ o t, source.opening_text = some o → source.text = some t →
      o ≠ "" → t ≠ "" → pyStartswith o t = true →
      r.text = some (o ++ "\n\n" ++ pyStrip (t.drop o.length))) ∧
    (∀ o t, source.opening_text = some o → source.text = some t →
      (o = "" ∨ t = "" ∨ pyStartswith o t = false) → r.text = some t) ∧
    (source.opening_text = none → r.text = source.text) ∧
    (source.text = none → r.text = none) := by
  obtain ⟨-, hr⟩ := extractPair_inv project lang ns index source r h
  subst hr
  refine ⟨?_, ?_, ?_, ?_⟩
  · intro o t ho ht ho1 ht1 hp
    simp only [ho, ht]
    exact reconstructText_pos o t ho1 ht1 hp
  · intro o t ho ht hneg
    simp only [ho, ht]
    exact reconstructText_neg o t hneg
  · intro ho
    simp only [ho]
    exact reconstructText_no_opening source.text
  · intro ht
    simp only [ht]
    exact reconstructText_no_text source.opening_text

/-- Witness for C1 on the spec's worked example: the reconstructed text of
the Cats page. -/
theorem claim1_text_reconstruction_witness :
    demoRecord.text = some ("Cats are animals." ++ "\n\n"
      ++ (pyStrip ("Cats are animals. They purr a lot.".drop
            "Cats are animals.".length))) :=
  (claim1_text_reconstruction "wiki" "en" 0 ⟨"1"⟩ demoSource demoRecord
      (by rfl)).1
    "Cats are animals." "Cats are animals. They purr a lot." rfl rfl
    (by decide) (by decide) (by decide)

/-- C2 (code bug): the min-length predicate is not total on the records the
iterator produces. A source document that passes the namespace check but has
no text field yields a record whose text is Python None; on that record
len(record.get("text", "")) is len(None) and raises TypeError (the records
always contain the text key, so the "" default of dict.get never applies).
The claim and the spec say an absent text counts as length 0 without error,
which is what the dead "" default was evidently meant to do. -/
theorem claim2_min_len_null_text_raises :
    (extractPair "wiki" "en" 0 ⟨"1"⟩ srcNoText).map (fun r => minLenPred 1 r)
        = some (.error ()) ∧
    textsOp "wiki" "en" 0 (some [Sum.inl ⟨"1"⟩, Sum.inr srcNoText])
        none none (some 1) none = .error .typeError := by
  exact ⟨rfl, rfl⟩

/-- C5: filter construction accepts min_len = 1 and rejects any min_len
less than 1 with ValueError, and the rejection happens in _get_filters,
which never sees a record: through the texts pipeline the ValueError
surfaces for every dump argument, even a missing one, before any record is
consumed. -/
theorem claim5_min_len_validation :
    (∀ category wiki_link,
      (getFilters category wiki_link (some 1)).isOk = true) ∧
    (∀ category wiki_link (n : Int), n < 1 →
      getFilters category wiki_link (some n) = .error ()) ∧
    (∀ project lang ns dump category wiki_link (n : Int) limit, n < 1 →
      textsOp project lang ns dump category wiki_link (some n) limit
        = .error .valueError) := by
  refine ⟨?_, ?_, ?_⟩
  · intro category wiki_link
    simp [getFilters, Except.isOk, Except.toBool]
  · intro category wiki_link n hn
    simp [getFilters, hn]
  · intro project lang ns dump category wiki_link n limit hn
    simp [textsOp, queryRecords, getFilters, hn]

/-- Witness for C5 at min_len = 1 and min_len = 0. -/
theorem claim5_min_len_validation_witness :
    (getFilters none none (some 1)).isOk = true ∧
    getFilters none none (some 0) = .error () ∧
    textsOp "wiki" "en" 0 none none none (some 0) none
      = .error .valueError :=
  ⟨claim5_min_len_validation.1 none none,
   claim5_min_len_validation.2.1 none none 0 (by decide),
   claim5_min_len_validation.2.2 "wiki" "en" 0 none none none 0 none
     (by decide)⟩

/-- C8: when the dump file does not exist (Wikimedia.filepath is None), the
iterator raises OSError before reading anything, and the texts operation
with no filters surfaces that error with no records yielded. -/
theorem claim8_missing_dump_not_found (project lang : String) (ns : Int) :
    iterRecords project lang ns none = .error .notFound ∧
    textsOp project lang ns none none none none none
      = .error .notFound := by
  exact ⟨rfl, rfl⟩

/-- C9: a source document with no namespace field is always skipped, because
dict.get returns None and None never equals the dataset's integer namespace
(Wikimedia.__init__ coerces namespace with int(...)). -/
theorem claim9_absent_namespace_skipped (project lang : String) (ns : Int)
    (index : IndexObj) (source : Source) (h : source.ns = none) :
    extractPair project lang ns index source = none ∧
    iterRecords project lang ns (some [Sum.inl index, Sum.inr source])
      = .ok [] := by
  have hne : ¬ (source.ns = some ns) := by
    rw [h]
    exact fun hc => Option.noConfusion hc
  constructor
  · rw [extractPair, if_neg hne]
  · simp [iterRecords, partition2, pairExtract, extractPair, if_neg hne]

/-- Witness for C9 on a concrete namespace-less source document. -/
theorem claim9_absent_namespace_skipped_witness :
    extractPair "wiki" "en" 0 ⟨"1"⟩ srcNoNs = none ∧
    iterRecords "wiki" "en" 0 (some [Sum.inl ⟨"1"⟩, Sum.inr srcNoNs])
      = .ok [] :=
  claim9_absent_namespace_skipped "wiki" "en" 0 ⟨"1"⟩ srcNoNs rfl

/-- C10: a source document that passes the namespace check but has no text
field is extracted as a record whose text is Python None, and with no
filters the texts operation yields that None value itself: the record is
neither skipped nor given an empty-string text. -/
theorem claim10_null_text_passthrough (project lang : String) (ns : Int)
    (index : IndexObj) (source : Source) (hns : source.ns = some ns)
    (ht : source.text = none) :
    (∃ r, extractPair project lang ns index source = some r
      ∧ r.text = none) ∧
    textsOp project lang ns (some [Sum.inl index, Sum.inr source])
      none none none none = .ok [none] := by
  constructor
  · refine ⟨_, by rw [extractPair, if_pos hns], ?_⟩
    simp only [ht]
    exact reconstructText_no_text source.opening_text
  · simp [textsOp, queryRecords, getFilters, catFilters, wlFilters,
      iterRecords, partition2, pairExtract, extractPair, if_pos hns,
      filteredLimited, listLimit, ht,
      reconstructText_no_text source.opening_text]

/-- Witness for C10 on a concrete source document with no text field. -/
theorem claim10_null_text_passthrough_witness :
    (∃ r, extractPair "wiki" "en" 0 ⟨"1"⟩ srcNoText = some r
      ∧ r.text = none) ∧
    textsOp "wiki" "en" 0 (some [Sum.inl ⟨"1"⟩, Sum.inr srcNoText])
      none none none none = .ok [none] :=
  claim10_null_text_passthrough "wiki" "en" 0 ⟨"1"⟩ srcNoText rfl rfl

/-- C7: the wiki_links of every yielded record are exactly the entries of
the source's outgoing_link list not starting with any registered bad prefix
for the (project, language) pair, in input order, and when no prefixes are
registered every entry is retained. -/
theorem claim7_wiki_link_cleaning (project lang : String) (ns : Int)
    (index : IndexObj) (source : Source) (r : Record)
    (h : extractPair project lang ns index source = some r) :
    r.wiki_links = source.outgoing_link.filter
      (fun wl => !((bad_wiki_link_starts project lang).any
        (fun b => pyStartswith b wl))) ∧
    (∀ wl, wl ∈ r.wiki_links ↔ wl ∈ source.outgoing_link ∧
      ∀ b ∈ bad_wiki_link_starts project lang,
        ¬ (pyStartswith b wl = true)) ∧
    r.wiki_links.Sublist source.outgoing_link ∧
    (bad_wiki_link_starts project lang = [] →
      r.wiki_links = source.outgoing_link) := by
  obtain ⟨-, hr⟩ := extractPair_inv project lang ns index source r h
  subst hr
  refine ⟨rfl, ?_, ?_, ?_⟩
  · intro wl
    simp [cleanWikiLinks, List.mem_filter, List.any_eq_true]
  · exact List.filter_sublist _
  · intro hempty
    simp [cleanWikiLinks, hempty]

/-- Witness for C7 on the spec's worked example: of the two outgoing links,
Wikipedia:Sandbox is dropped (registered bad prefix for wiki, en) and
Animal is kept. -/
theorem claim7_wiki_link_cleaning_witness :
    demoRecord.wiki_links = demoSource.outgoing_link.filter
      (fun wl => !((bad_wiki_link_starts "wiki" "en").any
        (fun b => pyStartswith b wl))) :=
  (claim7_wiki_link_cleaning "wiki" "en" 0 ⟨"1"⟩ demoSource demoRecord
    (by rfl)).1

/-- The length of the paired line list is the floor of half the raw line
count: a trailing odd line is dropped. -/
theorem partition2_length {α : Type} : (l : List α) →
    (partition2 l).length = l.length / 2
  | [] => by simp [partition2]
  | [_] => by simp [partition2]
  | a :: b :: t => by
    have ih := partition2_length t
    simp only [partition2, List.length_cons, ih]
    omega

/-- The k-th pair of the paired line list is (line 2k, line 2k+1): defined
exactly when both lines exist. -/
theorem partition2_getElem {α : Type} : (l : List α) → (k : Nat) →
    (partition2 l)[k]? =
      (l[2 * k]?.bind fun a => (l[2 * k + 1]?.map fun b => (a, b)))
  | [], k => by simp [partition2]
  | [a], k => by
    cases k with
    | zero => simp [partition2]
    | succ m =>
      have h1 : 2 * (m + 1) = 2 * m + 1 + 1 := by omega
      simp [partition2, h1]
  | a :: b :: t, 0 => by simp [partition2]
  | a :: b :: t, k + 1 => by
    have ih := partition2_getElem t k
    have h1 : 2 * (k + 1) = 2 * k + 1 + 1 := by omega
    have h2 : 2 * (k + 1) + 1 = 2 * k + 1 + 1 + 1 := by omega
    simp only [partition2, h1, h2, List.getElem?_cons_succ]
    exact ih

/-- C6: the dump lines are consumed strictly in (index, source) pairs: the
paired sequence has floor(n / 2) pairs for n raw lines (a trailing odd line
is dropped by the total pairing function, with no error), and its k-th pair
is made of raw lines 2k and 2k+1 in order. -/
theorem claim6_pairing (lines : List DumpLine) :
    (partition2 lines).length = lines.length / 2 ∧
    (∀ k, (partition2 lines)[k]? =
      (lines[2 * k]?.bind fun a =>
        (lines[2 * k + 1]?.map fun b => (a, b)))) :=
  ⟨partition2_length lines, fun k => partition2_getElem lines k⟩

/-- A record yielded by the filtered iteration came from the input stream
and passed all filters (all(...) returned True on it). -/
theorem mem_filteredIterGo (records : List Record) (fs : List PredE)
    (limit : Option Nat) (r : Record)
    (h : r ∈ (filteredIterGo records fs limit).1) :
    r ∈ records ∧ runFilters fs r = .ok true := by
  induction records generalizing limit with
  | nil => simp [filteredIterGo] at h
  | cons a rest ih =>
    by_cases h0 : limit = some 0
    · simp [filteredIterGo, h0] at h
    · simp only [filteredIterGo, if_neg h0] at h
      cases hra : runFilters fs a with
      | error e => simp only [hra] at h; simp at h
      | ok b =>
        cases b with
        | false =>
          simp only [hra] at h
          obtain ⟨hmem, hrun⟩ := ih _ h
          exact ⟨List.mem_cons_of_mem a hmem, hrun⟩
        | true =>
          simp only [hra] at h
          simp only [List.mem_cons] at h
          rcases h with h | h
          · subst h
            exact ⟨List.mem_cons_self r rest, hra⟩
          · obtain ⟨hmem, hrun⟩ := ih _ h
            exact ⟨List.mem_cons_of_mem a hmem, hrun⟩

/-- Inversion of a singleton filter list: all(...) returned True exactly
when the one predicate did. -/
theorem runFilters_singleton (f : PredE) (r : Record)
    (h : runFilters [f] r = .ok true) : f r = .ok true := by
  cases hf : f r with
  | error e => simp [runFilters, hf] at h
  | ok b =>
    cases b with
    | false => simp [runFilters, hf] at h
    | true => rfl

/-- C3: the category predicate holds exactly on records with a non-empty
categories field containing at least one requested value (OR across the
requested values), and consequently every record yielded by the query
pipeline under a one-element category filter has that category. -/
theorem claim3_category_filter :
    (∀ (arg : SetArg) (r : Record),
      categoryPred (validate_set_members arg) r = .ok true ↔
        (r.categories ≠ [] ∧
          ∃ c ∈ validate_set_members arg, c ∈ r.categories)) ∧
    (∀ (project lang : String) (ns : Int) (dump : Option (List DumpLine))
       (x : String) (limit : Option Nat) (out : List Record) (r : Record),
      queryRecords project lang ns dump (some (.many [x])) none none limit
          = .ok out →
      r ∈ out → x ∈ r.categories) := by
  have hiff : ∀ (l : List String) (r : Record),
      categoryPred l r = .ok true ↔
        (r.categories ≠ [] ∧ ∃ c ∈ l, c ∈ r.categories) := by
    intro l r
    simp [categoryPred, List.any_eq_true]
  constructor
  · intro arg r
    exact hiff (validate_set_members arg) r
  · intro project lang ns dump x limit out r hq hmem
    cases dump with
    | none => exact Except.noConfusion hq
    | some lines =>
      have hq2 :
          (if (filteredIterGo
                ((partition2 lines).filterMap (pairExtract project lang ns))
                [categoryPred [x]] limit).2 = true
            then (Except.error PipeErr.typeError :
                    Except PipeErr (List Record))
            else Except.ok (filteredIterGo
                ((partition2 lines).filterMap (pairExtract project lang ns))
                [categoryPred [x]] limit).1) = Except.ok out := hq
      cases hflag : (filteredIterGo ((partition2 lines).filterMap
          (pairExtract project lang ns)) [categoryPred [x]] limit).2 with
      | true => rw [hflag] at hq2; simp at hq2
      | false =>
        rw [hflag] at hq2
        simp at hq2
        subst hq2
        have hrun := (mem_filteredIterGo
          ((partition2 lines).filterMap (pairExtract project lang ns))
          [categoryPred [x]] limit r hmem).2
        have hone := runFilters_singleton (categoryPred [x]) r hrun
        obtain ⟨-, c, hc, hcm⟩ := (hiff [x] r).mp hone
        rw [List.mem_singleton] at hc
        subst hc
        exact hcm

/-- Witness for C3: on the spec's worked example, filtering by the category
Felines yields the demo record, whose categories contain Felines. -/
theorem claim3_category_filter_witness :
    "Felines" ∈ demoRecord.categories :=
  claim3_category_filter.2 "wiki" "en" 0
    (some [Sum.inl ⟨"1"⟩, Sum.inr demoSource])
    "Felines" none [demoRecord] demoRecord (by rfl) (by simp)

/-- When no filter raises on a record, all(...) evaluates to the boolean
conjunction of the individual predicates. -/
theorem runFilters_eq (fs : List PredE) (r : Record)
    (h : ∀ f ∈ fs, (f r).isOk = true) :
    runFilters fs r = .ok (passAllB fs r) := by
  induction fs with
  | nil => simp [runFilters, passAllB]
  | cons f fs ih =>
    have hf := h f (List.mem_cons_self f fs)
    cases hfr : f r with
    | error e => rw [hfr] at hf; simp [Except.isOk, Except.toBool] at hf
    | ok b =>
      cases b with
      | false => simp [runFilters, hfr, passAllB, predTrue]
      | true =>
        have ht := ih (fun g hg => h g (List.mem_cons_of_mem f hg))
        simp [runFilters, hfr, passAllB, predTrue, ht, List.all_cons]

/-- The filtered limited iteration, when no filter raises on any input
record, is exactly: filter by the conjunction of the predicates, then take
at most the limit, with no error. -/
theorem filteredIterGo_eq (records : List Record) (fs : List PredE)
    (h : ∀ r ∈ records, ∀ f ∈ fs, (f r).isOk = true) :
    ∀ limit, filteredIterGo records fs limit
      = (listLimit (records.filter (passAllB fs)) limit, false) := by
  induction records with
  | nil =>
    intro limit
    cases limit with
    | none => simp [filteredIterGo, listLimit]
    | some n => simp [filteredIterGo, listLimit]
  | cons a rest ih =>
    intro limit
    have ha : runFilters fs a = .ok (passAllB fs a) :=
      runFilters_eq fs a (h a (List.mem_cons_self a rest))
    have ihr := ih (fun r hr f hf => h r (List.mem_cons_of_mem a hr) f hf)
    by_cases h0 : limit = some 0
    · subst h0
      simp [filteredIterGo, listLimit]
    · cases hp : passAllB fs a with
      | true =>
        rw [hp] at ha
        simp only [filteredIterGo, if_neg h0, ha]
        rw [List.filter_cons_of_pos hp]
        cases limit with
        | none => simp [ihr none, listLimit]
        | some n =>
          obtain ⟨m, rfl⟩ : ∃ m, n = m + 1 := by
            refine ⟨n - 1, ?_⟩
            have : n ≠ 0 := fun hc => h0 (by rw [hc])
            omega
          simp [ihr (some m), listLimit, List.take_succ_cons]
      | false =>
        rw [hp] at ha
        simp only [filteredIterGo, if_neg h0, ha]
        rw [List.filter_cons_of_neg (by simp [hp])]
        exact ihr limit

/-- C4: provided no constructed predicate raises on any input record (see
the C2 result for the raising case), a record is yielded by the filtered
limited iteration exactly when every predicate returns True on it, records
come out in input order (a sublist of the input), with limit N exactly
min(N, number of matching records) are yielded, and with no limit all
matching records are yielded. -/
theorem claim4_filter_and_limit (records : List Record) (fs : List PredE)
    (limit : Option Nat)
    (h : ∀ r ∈ records, ∀ f ∈ fs, (f r).isOk = true) :
    filteredLimited records fs limit
      = (listLimit (records.filter (passAllB fs)) limit, false) ∧
    (filteredLimited records fs limit).1.Sublist records ∧
    (∀ n, limit = some n →
      (filteredLimited records fs limit).1.length
        = min n (records.filter (passAllB fs)).length) ∧
    (limit = none → ∀ r,
      r ∈ (filteredLimited records fs limit).1 ↔
        r ∈ records ∧ passAllB fs r = true) := by
  have hmain : filteredLimited records fs limit
      = (listLimit (records.filter (passAllB fs)) limit, false) := by
    by_cases hfs : fs.isEmpty = true
    · obtain rfl : fs = [] := by
        cases fs with
        | nil => rfl
        | cons g gs => simp at hfs
      have hall : records.filter (passAllB []) = records := by
        have : ∀ r : Record, passAllB [] r = true := fun r => rfl
        simp [this]
      simp [filteredLimited, hall]
    · rw [filteredLimited, if_neg hfs]
      exact filteredIterGo_eq records fs h limit
  refine ⟨hmain, ?_, ?_, ?_⟩
  · rw [hmain]
    cases limit with
    | none => exact List.filter_sublist records
    | some n =>
      exact (List.take_sublist n _).trans (List.filter_sublist records)
  · intro n hn
    rw [hmain, hn]
    simp [listLimit, List.length_take]
  · intro hn r
    rw [hmain, hn]
    simp [listLimit, List.mem_filter]

/-- Witness for C4: two records, a min-length filter, limit 1; the record
with empty text is rejected, the one-character record is yielded, and the
characterization holds. -/
theorem claim4_filter_and_limit_witness :
    filteredLimited [recEmptyText, recShortText] [minLenPred 1] (some 1)
      = (listLimit ([recEmptyText, recShortText].filter
          (passAllB [minLenPred 1])) (some 1), false) :=
  (claim4_filter_and_limit [recEmptyText, recShortText] [minLenPred 1]
    (some 1) (by
      intro r hr f hf
      rw [List.mem_singleton] at hf
      subst hf
      rcases List.mem_cons.mp hr with h1 | h1
      · subst h1
        decide
      · rw [List.mem_singleton] at h1
        subst h1
        decide)).1
